import Mathlib

/-!
Verification of the drafter agent (src/agent.py): a shallow embedding of the
document tools (`update`, `save`), the termination predicate
(`should_continue`), and the LangGraph wiring (`setup_graph`), together with
theorems settling the specification claims.

Modelling conventions: Python strings are Lean `String`s manipulated through
their character lists; `str.strip()`, `str.lower()`, `str.isalnum()` are
modelled on ASCII (the markers and filenames the claims concern are ASCII).
File-system writes are modelled as data: `save` returns the (path, contents)
pair it would write, or `none` when no write happens.
-/

namespace Drafter

/-- Prefix test on character lists: the needle matches at the start of the
haystack (used to model Python substring search). -/
def isPrefixCh : List Char → List Char → Bool
  | [], _ => true
  | _ :: _, [] => false
  | a :: as, b :: bs => (a == b) && isPrefixCh as bs

/-- Python substring test `needle in haystack`, on character lists. -/
def containsSub (needle : List Char) : List Char → Bool
  | [] => isPrefixCh needle []
  | b :: bs => isPrefixCh needle (b :: bs) || containsSub needle bs

/-- Python `str.lower()` (ASCII model). -/
def lowerL (l : List Char) : List Char := l.map Char.toLower

/-- Python `str.strip()` on character lists: drop whitespace from both ends. -/
def stripL (l : List Char) : List Char :=
  (((l.dropWhile Char.isWhitespace).reverse).dropWhile Char.isWhitespace).reverse

/-- Python `str.strip()`. -/
def strip (s : String) : String := ⟨stripL s.data⟩

/-- Characters kept by the save-filename sanitizer, src/agent.py line 72:
`c.isalnum() or c in "._- "`. -/
def allowedChar (c : Char) : Bool :=
  c.isAlphanum || c == '.' || c == '_' || c == '-' || c == ' '

/-- src/agent.py line 72: `"".join(c for c in filename if c.isalnum() or c in "._- ")`. -/
def sanitize (s : String) : String := ⟨s.data.filter allowedChar⟩

/-- Python `s.endswith(suf)`. -/
def endsWith (s suf : String) : Bool := isPrefixCh suf.data.reverse s.data.reverse

/-- Result of the `update` tool: the new value of the global
`document_content` and the returned message (src/agent.py lines 33-49). -/
structure UpdateResult where
  newDoc : String
  message : String

/-- src/agent.py lines 44-49: reject blank content, otherwise store the
stripped content and confirm with the full new content. -/
def update (content : String) (doc : String) : UpdateResult :=
  if strip content = "" then
    ⟨doc, "Error: Cannot update document with empty content."⟩
  else
    ⟨strip content,
     "✅ Document has been updated successfully!\n\nCurrent content:\n" ++ strip content⟩

/-- src/agent.py lines 67-72: append ".txt" when absent, then sanitize.
Note the sanitization runs after the extension is appended. -/
def normalizeFilename (filename : String) : String :=
  sanitize (if endsWith filename ".txt" then filename else filename ++ ".txt")

/-- Result of the `save` tool: the returned message and the file write it
performs, as data (`some (path, contents)`), or `none` when no write occurs. -/
structure SaveResult where
  message : String
  written : Option (String × String)

/-- src/agent.py lines 62-89.  When the stripped document is empty the
function returns the warning at line 65 before reaching the write at
line 80, so no write occurs.  Otherwise it writes the document to the
normalized path and confirms with `file_path.name`; since the sanitizer
removes every path separator, `Path(filename).name` is the whole
normalized filename. -/
def save (doc : String) (filename : String) : SaveResult :=
  if strip doc = "" then
    ⟨"⚠️ Warning: Document is empty. Saving empty document.", none⟩
  else
    ⟨"✅ Document has been saved successfully to '" ++ normalizeFilename filename ++ "'.",
     some (normalizeFilename filename, doc)⟩

/-- src/agent.py line 87: the failed-save outcome text (exception branch). -/
def failedSaveMsg (e : String) : String := "❌ Error saving document: " ++ e

/-- A model-issued tool-call request (name plus string arguments). -/
structure ToolCall where
  name : String
  args : List (String × String)
  deriving DecidableEq

/-- Conversation messages, mirroring the LangChain message classes used in
src/agent.py: SystemMessage, HumanMessage, AIMessage (with its tool calls),
ToolMessage. -/
inductive Msg where
  | system : String → Msg
  | human : String → Msg
  | ai : String → List ToolCall → Msg
  | tool : String → Msg
  deriving DecidableEq

/-- src/agent.py lines 213-216: the message is a ToolMessage and its
lower-cased content contains "saved", "document" and "successfully". -/
def isSaveSuccessToolMsg : Msg → Bool
  | Msg.tool c =>
      containsSub "saved".data (lowerL c.data) &&
      containsSub "document".data (lowerL c.data) &&
      containsSub "successfully".data (lowerL c.data)
  | _ => false

/-- src/agent.py lines 212-217: the `for message in reversed(messages)` loop;
returns "end" on the first matching ToolMessage, else falls through. -/
def scanForSave : List Msg → String
  | [] => "continue"
  | m :: rest => if isSaveSuccessToolMsg m then "end" else scanForSave rest

/-- src/agent.py lines 196-219: `should_continue`. -/
def should_continue (messages : List Msg) : String :=
  if messages.isEmpty then "continue" else scanForSave messages.reverse

/-- The LangGraph graph as data: entry point, plain edges, and conditional
edges (source node, routing function, mapping from route label to target). -/
structure Graph where
  entry : String
  edges : List (String × String)
  condEdges : List (String × (List Msg → String) × List (String × String))

/-- Association-list lookup used to resolve edges by source node. -/
def lookupStr : List (String × String) → String → Option String
  | [], _ => none
  | p :: rest, k => if p.fst == k then some p.snd else lookupStr rest k

/-- Lookup of a conditional edge by source node. -/
def findCond :
    List (String × (List Msg → String) × List (String × String)) → String →
    Option ((List Msg → String) × List (String × String))
  | [], _ => none
  | c :: rest, k => if c.fst == k then some c.snd else findCond rest k

/-- src/agent.py lines 247-271: entry point "agent", the unconditional edge
`add_edge("agent", "tools")` at line 259, and the conditional edges from
"tools" routed by `should_continue`. -/
def setup_graph : Graph :=
  ⟨"agent",
   [("agent", "tools")],
   [("tools", should_continue, [("continue", "agent"), ("end", "END")])]⟩

/-- Successor node in the graph: plain edges take priority (the compiled
graph follows `add_edge` unconditionally), conditional edges route through
their function applied to the current message history. -/
def nextNode (g : Graph) (node : String) (msgs : List Msg) : Option String :=
  match lookupStr g.edges node with
  | some t => some t
  | none =>
    match findCond g.condEdges node with
    | some c => lookupStr c.snd (c.fst msgs)
    | none => none

/-- A tool invocation as it affects the stored document: `update` with some
content, or `save` with some filename. -/
inductive Op where
  | upd : String → Op
  | sav : String → Op

/-- Effect of one tool call on the global `document_content`: `update`
stores its result, `save` never mutates the document. -/
def applyOp (doc : String) : Op → String
  | Op.upd s => (update s doc).newDoc
  | Op.sav _ => doc

/-- Effect of a sequence of tool calls on the document. -/
def applyOps (doc : String) : List Op → String
  | [] => doc
  | op :: rest => applyOps (applyOp doc op) rest

/-! ### Helper lemmas about the string primitives -/

theorem dropWhile_idem {α : Type} (p : α → Bool) (l : List α) :
    (l.dropWhile p).dropWhile p = l.dropWhile p := by
  induction l with
  | nil => rfl
  | cons a t ih =>
    by_cases h : p a = true
    · simp [List.dropWhile_cons, h, ih]
    · simp [List.dropWhile_cons, h]

theorem length_dropWhile_le {α : Type} (p : α → Bool) (l : List α) :
    (l.dropWhile p).length ≤ l.length := by
  induction l with
  | nil => simp
  | cons a t ih =>
    by_cases h : p a = true
    · simp [List.dropWhile_cons, h]
      omega
    · simp [List.dropWhile_cons, h]

theorem dropWhile_eq_self_of_append {α : Type} (p : α → Bool) (t b l : List α)
    (hl : l = t ++ b) (h : l.dropWhile p = l) : t.dropWhile p = t := by
  cases t with
  | nil => rfl
  | cons x t2 =>
    by_cases hx : p x = true
    · exfalso
      have h1 : l.dropWhile p = (t2 ++ b).dropWhile p := by
        rw [hl]
        simp [List.dropWhile_cons, hx]
      have h2 : ((t2 ++ b).dropWhile p).length ≤ (t2 ++ b).length :=
        length_dropWhile_le p (t2 ++ b)
      rw [h, hl] at h1
      have h3 : (x :: t2 ++ b).length = (t2 ++ b).length + 1 := by simp
      rw [h1] at h3
      omega
    · simp [List.dropWhile_cons, hx]

theorem trimBoth_idem {α : Type} (p : α → Bool) (m : List α)
    (hmfix : m.dropWhile p = m) :
    (((((m.reverse.dropWhile p).reverse).dropWhile p).reverse.dropWhile p).reverse)
      = ((m.reverse.dropWhile p).reverse) := by
  have hdec : m = (m.reverse.dropWhile p).reverse ++ (m.reverse.takeWhile p).reverse := by
    have h1 : m.reverse.takeWhile p ++ m.reverse.dropWhile p = m.reverse :=
      List.takeWhile_append_dropWhile p m.reverse
    calc m = m.reverse.reverse := (List.reverse_reverse m).symm
    _ = (m.reverse.takeWhile p ++ m.reverse.dropWhile p).reverse := by rw [h1]
    _ = (m.reverse.dropWhile p).reverse ++ (m.reverse.takeWhile p).reverse := by
        rw [List.reverse_append]
  have htfix : ((m.reverse.dropWhile p).reverse).dropWhile p = (m.reverse.dropWhile p).reverse :=
    dropWhile_eq_self_of_append p _ _ m hdec hmfix
  rw [htfix, List.reverse_reverse, dropWhile_idem]

theorem stripL_idem (l : List Char) : stripL (stripL l) = stripL l := by
  show ((((((l.dropWhile Char.isWhitespace).reverse.dropWhile Char.isWhitespace).reverse).dropWhile
      Char.isWhitespace).reverse.dropWhile Char.isWhitespace).reverse)
    = (((l.dropWhile Char.isWhitespace).reverse.dropWhile Char.isWhitespace).reverse)
  exact trimBoth_idem Char.isWhitespace (l.dropWhile Char.isWhitespace)
    (dropWhile_idem Char.isWhitespace l)

theorem strip_idem (s : String) : strip (strip s) = strip s := by
  show (⟨stripL (strip s).data⟩ : String) = ⟨stripL s.data⟩
  show (⟨stripL (stripL s.data)⟩ : String) = ⟨stripL s.data⟩
  rw [stripL_idem]

theorem filter_all_eq {α : Type} (p : α → Bool) (l : List α)
    (h : l.all p = true) : l.filter p = l := by
  induction l with
  | nil => rfl
  | cons a t ih =>
    simp only [List.all_cons, Bool.and_eq_true] at h
    simp [List.filter_cons, h.1, ih h.2]

theorem filter_idem {α : Type} (p : α → Bool) (l : List α) :
    (l.filter p).filter p = l.filter p := by
  induction l with
  | nil => rfl
  | cons a t ih =>
    by_cases h : p a = true
    · simp [List.filter_cons, h, ih]
    · simp [List.filter_cons, h, ih]

theorem str_ext {s t : String} (h : s.data = t.data) : s = t := by
  cases s
  cases t
  simp only at h
  rw [h]

theorem str_data_append (s t : String) : (s ++ t).data = s.data ++ t.data := rfl

theorem containsSub_nil_needle (l : List Char) : containsSub [] l = true := by
  cases l <;> simp [containsSub, isPrefixCh]

theorem isPrefixCh_append {n a : List Char} (b : List Char) (h : isPrefixCh n a = true) :
    isPrefixCh n (a ++ b) = true := by
  induction n generalizing a with
  | nil => rfl
  | cons c n2 ih =>
    cases a with
    | nil => simp [isPrefixCh] at h
    | cons x a2 =>
      simp only [isPrefixCh, Bool.and_eq_true] at h
      simp only [List.cons_append, isPrefixCh, Bool.and_eq_true]
      exact ⟨h.1, ih h.2⟩

theorem containsSub_append_left (n x y : List Char) (h : containsSub n y = true) :
    containsSub n (x ++ y) = true := by
  induction x with
  | nil => simpa using h
  | cons a x2 ih =>
    show (isPrefixCh n (a :: (x2 ++ y)) || containsSub n (x2 ++ y)) = true
    rw [ih]
    simp

theorem containsSub_append_right (n x y : List Char) (h : containsSub n x = true) :
    containsSub n (x ++ y) = true := by
  induction x with
  | nil =>
    cases n with
    | nil => exact containsSub_nil_needle y
    | cons c n2 => simp [containsSub, isPrefixCh] at h
  | cons a x2 ih =>
    show (isPrefixCh n (a :: (x2 ++ y)) || containsSub n (x2 ++ y)) = true
    have h2 : (isPrefixCh n (a :: x2) || containsSub n x2) = true := h
    rcases Bool.or_eq_true_iff.mp h2 with hp | hc
    · have := isPrefixCh_append y hp
      simp only [List.cons_append] at this
      rw [this]
      simp
    · rw [ih hc]
      simp

theorem containsSub_infix (n a m b : List Char) (h : containsSub n m = true) :
    containsSub n (a ++ (m ++ b)) = true :=
  containsSub_append_left n a _ (containsSub_append_right n m b h)

theorem rev_decomp {α : Type} (p : α → Bool) (m : List α) :
    m = (m.reverse.dropWhile p).reverse ++ (m.reverse.takeWhile p).reverse := by
  have h1 : m.reverse.takeWhile p ++ m.reverse.dropWhile p = m.reverse :=
    List.takeWhile_append_dropWhile p m.reverse
  calc m = m.reverse.reverse := (List.reverse_reverse m).symm
  _ = (m.reverse.takeWhile p ++ m.reverse.dropWhile p).reverse := by rw [h1]
  _ = (m.reverse.dropWhile p).reverse ++ (m.reverse.takeWhile p).reverse := by
      rw [List.reverse_append]

theorem stripL_decomp (l : List Char) :
    l = l.takeWhile Char.isWhitespace ++
      (stripL l ++
        ((l.dropWhile Char.isWhitespace).reverse.takeWhile Char.isWhitespace).reverse) := by
  have h1 := List.takeWhile_append_dropWhile Char.isWhitespace l
  have h2 := rev_decomp Char.isWhitespace (l.dropWhile Char.isWhitespace)
  have h3 : stripL l
      = ((l.dropWhile Char.isWhitespace).reverse.dropWhile Char.isWhitespace).reverse := rfl
  rw [h3, ← h2, h1]

theorem lowerL_append (x y : List Char) : lowerL (x ++ y) = lowerL x ++ lowerL y :=
  List.map_append _ _ _

theorem containsSub_lower_stripL (n l : List Char)
    (h : containsSub n (lowerL (stripL l)) = true) : containsSub n (lowerL l) = true := by
  have h2 : lowerL l
      = lowerL (l.takeWhile Char.isWhitespace) ++
        (lowerL (stripL l) ++
          lowerL (((l.dropWhile Char.isWhitespace).reverse.takeWhile Char.isWhitespace).reverse)) := by
    conv_lhs => rw [stripL_decomp l]
    rw [lowerL_append, lowerL_append]
  rw [h2]
  exact containsSub_infix _ _ _ _ h

theorem isPrefixCh_append_cons (n a b : List Char) (ch : Char) (h : ch ∉ n) :
    isPrefixCh n (a ++ ch :: b) = isPrefixCh n a := by
  induction a generalizing n with
  | nil =>
    cases n with
    | nil => rfl
    | cons c n2 =>
      have hc : (c == ch) = false := by
        have : c ≠ ch := fun he => h (he ▸ List.mem_cons_self c n2)
        simp [this]
      simp only [List.nil_append]
      show ((c == ch) && isPrefixCh n2 b) = isPrefixCh (c :: n2) []
      rw [hc]
      rfl
  | cons x a2 ih =>
    cases n with
    | nil => rfl
    | cons c n2 =>
      have h2 : ch ∉ n2 := fun hm => h (List.mem_cons_of_mem c hm)
      simp only [List.cons_append]
      show ((c == x) && isPrefixCh n2 (a2 ++ ch :: b)) = ((c == x) && isPrefixCh n2 a2)
      rw [ih n2 h2]

theorem containsSub_append_cons (n a b : List Char) (ch : Char) (h : ch ∉ n) :
    containsSub n (a ++ ch :: b) = (containsSub n a || containsSub n b) := by
  induction a with
  | nil =>
    simp only [List.nil_append]
    show (isPrefixCh n (ch :: b) || containsSub n b) = (isPrefixCh n [] || containsSub n b)
    have hp := isPrefixCh_append_cons n [] b ch h
    simp only [List.nil_append] at hp
    rw [hp]
  | cons x a2 ih =>
    simp only [List.cons_append]
    show (isPrefixCh n (x :: (a2 ++ ch :: b)) || containsSub n (a2 ++ ch :: b))
        = ((isPrefixCh n (x :: a2) || containsSub n a2) || containsSub n b)
    have hp := isPrefixCh_append_cons n (x :: a2) b ch h
    simp only [List.cons_append] at hp
    rw [hp, ih, Bool.or_assoc]

theorem scanForSave_end_iff (l : List Msg) :
    scanForSave l = "end" ↔ ∃ m, m ∈ l ∧ isSaveSuccessToolMsg m = true := by
  induction l with
  | nil =>
    constructor
    · intro h; exact absurd h (by decide)
    · rintro ⟨m, hm, _⟩; exact absurd hm (List.not_mem_nil m)
  | cons x rest ih =>
    by_cases hx : isSaveSuccessToolMsg x = true
    · constructor
      · intro _
        exact ⟨x, List.mem_cons_self x rest, hx⟩
      · intro _
        simp [scanForSave, hx]
    · have hscan : scanForSave (x :: rest) = scanForSave rest := by
        simp [scanForSave, hx]
      rw [hscan, ih]
      constructor
      · rintro ⟨m, hm, hms⟩; exact ⟨m, List.mem_cons_of_mem x hm, hms⟩
      · rintro ⟨m, hm, hms⟩
        cases List.mem_cons.mp hm with
        | inl he => exact absurd (he ▸ hms) hx
        | inr ht => exact ⟨m, ht, hms⟩

theorem should_continue_end_iff (msgs : List Msg) :
    should_continue msgs = "end" ↔ ∃ m, m ∈ msgs ∧ isSaveSuccessToolMsg m = true := by
  cases msgs with
  | nil =>
    constructor
    · intro h; exact absurd h (by decide)
    · rintro ⟨m, hm, _⟩; exact absurd hm (List.not_mem_nil m)
  | cons x rest =>
    have h1 : should_continue (x :: rest) = scanForSave (x :: rest).reverse := rfl
    rw [h1, scanForSave_end_iff]
    constructor
    · rintro ⟨m, hm, hs⟩; exact ⟨m, List.mem_reverse.mp hm, hs⟩
    · rintro ⟨m, hm, hs⟩; exact ⟨m, List.mem_reverse.mpr hm, hs⟩

/-! ### Claim theorems -/

/-- C6: for every string s whose trimmed form is non-empty, `update(s)`
followed by reading the document content returns `trim(s)`: the update fully
replaces the prior content with the trimmed input. -/
theorem C6_update_then_read (s doc : String) (h : strip s ≠ "") :
    (update s doc).newDoc = strip s := by
  unfold update
  rw [if_neg h]

theorem C6_update_then_read_witness : (update " hi " "old").newDoc = strip " hi " :=
  C6_update_then_read " hi " "old" (by decide)

/-- C7: updating with the empty string or a whitespace-only string fails with
the empty-content error and leaves the previously stored document content
unchanged. -/
theorem C7_update_blank_rejected (s doc : String) (h : strip s = "") :
    (update s doc).newDoc = doc ∧
    (update s doc).message = "Error: Cannot update document with empty content." := by
  unfold update
  rw [if_pos h]
  exact ⟨rfl, rfl⟩

theorem C7_update_blank_rejected_witness :
    ((update "" "prior").newDoc = "prior" ∧
      (update "" "prior").message = "Error: Cannot update document with empty content.") ∧
    ((update "   " "prior").newDoc = "prior" ∧
      (update "   " "prior").message = "Error: Cannot update document with empty content.") :=
  ⟨C7_update_blank_rejected "" "prior" (by decide),
   C7_update_blank_rejected "   " "prior" (by decide)⟩

/-- C8: filename sanitization is idempotent: sanitizing an already-sanitized
filename yields the same filename. -/
theorem C8_sanitize_idempotent (f : String) : sanitize (sanitize f) = sanitize f := by
  apply str_ext
  show (f.data.filter allowedChar).filter allowedChar = f.data.filter allowedChar
  exact filter_idem allowedChar f.data

/-- C9: starting from the empty document, after every sequence of update and
save calls the stored document content equals its own trimmed form. -/
theorem C9_document_trim_invariant (ops : List Op) :
    strip (applyOps "" ops) = applyOps "" ops := by
  have main : ∀ (os : List Op) (doc : String), strip doc = doc →
      strip (applyOps doc os) = applyOps doc os := by
    intro os
    induction os with
    | nil => intro doc h; exact h
    | cons op rest ih =>
      intro doc h
      show strip (applyOps (applyOp doc op) rest) = applyOps (applyOp doc op) rest
      apply ih
      cases op with
      | sav f => exact h
      | upd s =>
        show strip (update s doc).newDoc = (update s doc).newDoc
        unfold update
        by_cases hc : strip s = ""
        · rw [if_pos hc]; exact h
        · rw [if_neg hc]; exact strip_idem s
  exact main ops "" (by decide)

/-- C1: contrary to the claim, a `save` issued while the stored document is
empty returns the warning of src/agent.py line 65 before reaching the file
write at line 80: no write occurs, and the warning text carries none of the
success markers, so the termination predicate still says "continue" and the
session does not terminate.  This evaluates the code at the failing input
(document = "", filename = "notes"). -/
theorem C1_empty_save_writes_nothing_and_does_not_terminate :
    (save "" "notes").written = none ∧
    (save "" "notes").message = "⚠️ Warning: Document is empty. Saving empty document." ∧
    should_continue [Msg.tool (save "" "notes").message] = "continue" := by
  decide

/-- C2: the termination predicate returns "continue" on an empty history and
on a history whose only ToolResult is a failed-save outcome (for any error
text not containing the "saved" marker), and returns "end" on every history
containing a ToolResult whose text carries all three success markers,
regardless of the other messages in the history. -/
theorem C2_termination_predicate :
    should_continue [] = "continue" ∧
    (∀ e : String, containsSub "saved".data (lowerL e.data) = false →
      should_continue [Msg.tool (failedSaveMsg e)] = "continue") ∧
    (∀ (msgs : List Msg) (c : String), Msg.tool c ∈ msgs →
      isSaveSuccessToolMsg (Msg.tool c) = true → should_continue msgs = "end") := by
  refine ⟨by decide, ?_, ?_⟩
  · intro e he
    have hsaved : containsSub "saved".data (lowerL (failedSaveMsg e).data) = false := by
      have h0 : ("❌ Error saving document: ").data
          = "❌ Error saving document:".data ++ [' '] := by decide
      have hdata : (failedSaveMsg e).data
          = "❌ Error saving document:".data ++ ' ' :: e.data := by
        show ("❌ Error saving document: " ++ e).data = _
        rw [str_data_append, h0, List.append_assoc]
        rfl
      rw [hdata, lowerL_append]
      show containsSub "saved".data
          (lowerL "❌ Error saving document:".data ++ ' ' :: lowerL e.data) = false
      rw [containsSub_append_cons _ _ _ ' ' (by decide), he]
      decide
    have hmark : isSaveSuccessToolMsg (Msg.tool (failedSaveMsg e)) = false := by
      simp only [isSaveSuccessToolMsg]
      rw [hsaved]
      simp
    have hstep : should_continue [Msg.tool (failedSaveMsg e)]
        = scanForSave [Msg.tool (failedSaveMsg e)] := rfl
    rw [hstep]
    simp [scanForSave, hmark]
  · intro msgs c hmem hmark
    exact (should_continue_end_iff msgs).mpr ⟨Msg.tool c, hmem, hmark⟩

/-- C2 witness: the theorem instantiated at a concrete failed save and at a
concrete history holding an earlier failed save followed by a successful
save. -/
theorem C2_termination_predicate_witness :
    should_continue [Msg.tool (failedSaveMsg "Permission denied")] = "continue" ∧
    should_continue
      [Msg.tool (failedSaveMsg "disk full"),
       Msg.tool "✅ Document has been saved successfully to 'poem.txt'."] = "end" :=
  ⟨C2_termination_predicate.2.1 "Permission denied" (by decide),
   C2_termination_predicate.2.2 _ "✅ Document has been saved successfully to 'poem.txt'."
     (by decide) (by decide)⟩

/-- C3 counterexample: the claim fails at content = "saved": the successful
update confirmation then contains "saved", "document" and "successfully" at
once, so the termination predicate is satisfied by an update message. -/
theorem C3_counterexample :
    should_continue [Msg.tool (update "saved" "").message] = "end" := by
  decide

/-- C3 (amended): for every content string whose lower-cased text does not
contain the substring "saved", the ToolResult message produced by `update`
never satisfies the termination predicate. -/
theorem C3_update_no_false_positive (c doc : String)
    (h : containsSub "saved".data (lowerL c.data) = false) :
    should_continue [Msg.tool (update c doc).message] = "continue" := by
  have hmark : isSaveSuccessToolMsg (Msg.tool (update c doc).message) = false := by
    by_cases hc : strip c = ""
    · have hmsg : (update c doc).message
          = "Error: Cannot update document with empty content." := by
        unfold update; rw [if_pos hc]
      rw [hmsg]
      decide
    · have hmsg : (update c doc).message
          = "✅ Document has been updated successfully!\n\nCurrent content:\n" ++ strip c := by
        unfold update; rw [if_neg hc]
      rw [hmsg]
      have hsaved : containsSub "saved".data
          (lowerL ("✅ Document has been updated successfully!\n\nCurrent content:\n"
            ++ strip c).data) = false := by
        have h0 : ("✅ Document has been updated successfully!\n\nCurrent content:\n").data
            = "✅ Document has been updated successfully!\n\nCurrent content:".data ++ ['\n'] := by
          decide
        rw [str_data_append, h0, List.append_assoc, lowerL_append]
        show containsSub "saved".data
            (lowerL "✅ Document has been updated successfully!\n\nCurrent content:".data
              ++ '\n' :: lowerL (strip c).data) = false
        rw [containsSub_append_cons _ _ _ '\n' (by decide)]
        have hs2 : containsSub "saved".data (lowerL (strip c).data) = false := by
          have hd : (strip c).data = stripL c.data := rfl
          rw [hd]
          cases hval : containsSub "saved".data (lowerL (stripL c.data)) with
          | false => rfl
          | true =>
            have hup := containsSub_lower_stripL "saved".data c.data hval
            rw [h] at hup
            exact absurd hup (by decide)
        rw [hs2]
        decide
      simp only [isSaveSuccessToolMsg]
      rw [hsaved]
      simp
  have hstep : should_continue [Msg.tool (update c doc).message]
      = scanForSave [Msg.tool (update c doc).message] := rfl
  rw [hstep]
  simp [scanForSave, hmark]

/-- C3 witness: a benign update content not mentioning "saved". -/
theorem C3_update_no_false_positive_witness :
    should_continue [Msg.tool (update "A quiet haiku about rain" "old").message]
      = "continue" :=
  C3_update_no_false_positive "A quiet haiku about rain" "old" (by decide)

/-- C4 counterexample: the claim fails on the code: after the agent node, an
assistant response carrying no tool calls still leads to the "tools" node,
because src/agent.py line 259 adds the unconditional edge
`add_edge("agent", "tools")`; the tool-execution node is entered anyway. -/
theorem C4_counterexample :
    nextNode setup_graph "agent" [Msg.human "hi", Msg.ai "hello there" []] = some "tools" ∧
    nextNode setup_graph "agent" [Msg.human "hi", Msg.ai "hello there" []] ≠ some "agent" := by
  decide

/-- C4 (amended): in the compiled graph the agent node transitions to the
tools node unconditionally, whatever the history and whether or not the last
assistant response carries tool calls; user input is awaited only by
returning to the agent node from the tools node when the termination
predicate says "continue", and the session ends from the tools node when it
says "end". -/
theorem C4_agent_unconditionally_to_tools (msgs : List Msg) :
    nextNode setup_graph "agent" msgs = some "tools" ∧
    (should_continue msgs = "continue" → nextNode setup_graph "tools" msgs = some "agent") ∧
    (should_continue msgs = "end" → nextNode setup_graph "tools" msgs = some "END") := by
  have key : ∀ ms : List Msg, nextNode setup_graph "tools" ms
      = lookupStr [("continue", "agent"), ("end", "END")] (should_continue ms) := fun _ => rfl
  refine ⟨rfl, fun h => ?_, fun h => ?_⟩
  · rw [key, h]; rfl
  · rw [key, h]; rfl

/-- C4 witness: a no-tool-call response routes agent → tools and then back to
agent; a successful save routes tools → END. -/
theorem C4_agent_unconditionally_to_tools_witness :
    nextNode setup_graph "agent" [Msg.ai "no calls here" []] = some "tools" ∧
    nextNode setup_graph "tools" [Msg.ai "no calls here" []] = some "agent" ∧
    nextNode setup_graph "tools"
      [Msg.tool "✅ Document has been saved successfully to 'a.txt'."] = some "END" :=
  ⟨(C4_agent_unconditionally_to_tools [Msg.ai "no calls here" []]).1,
   (C4_agent_unconditionally_to_tools [Msg.ai "no calls here" []]).2.1 (by decide),
   (C4_agent_unconditionally_to_tools
     [Msg.tool "✅ Document has been saved successfully to 'a.txt'."]).2.2 (by decide)⟩

/-- C5 counterexample: the claim fails on the code because sanitization runs
after the extension is appended: save with filename "a/b" writes to "ab.txt",
not to "a/b" + ".txt". -/
theorem C5_counterexample :
    (save "hello" "a/b").written = some ("ab.txt", "hello") ∧
    (save "hello" "a/b").written ≠ some ("a/b" ++ ".txt", "hello") := by
  decide

/-- C5 (amended): for every filename f made only of characters the sanitizer
keeps and not ending in ".txt", save writes to f + ".txt"; for every filename
already bearing ".txt", no suffix is appended and the written path is the
sanitized filename (which ends in a doubled extension only if the input
already did). -/
theorem C5_save_path (doc f g : String) (hdoc : strip doc ≠ "")
    (hf : f.data.all allowedChar = true) (hf2 : endsWith f ".txt" = false)
    (hg : endsWith g ".txt" = true) :
    (save doc f).written = some (f ++ ".txt", doc) ∧
    (save doc g).written = some (sanitize g, doc) := by
  constructor
  · have hw : (save doc f).written = some (normalizeFilename f, doc) := by
      unfold save; rw [if_neg hdoc]
    rw [hw]
    have hn : normalizeFilename f = f ++ ".txt" := by
      unfold normalizeFilename
      rw [if_neg (by simp [hf2])]
      apply str_ext
      show ((f ++ ".txt").data.filter allowedChar) = (f ++ ".txt").data
      rw [str_data_append, List.filter_append, filter_all_eq allowedChar f.data hf]
      have htxt : ".txt".data.filter allowedChar = ".txt".data := by decide
      rw [htxt]
    rw [hn]
  · have hw : (save doc g).written = some (normalizeFilename g, doc) := by
      unfold save; rw [if_neg hdoc]
    rw [hw]
    have hn : normalizeFilename g = sanitize g := by
      unfold normalizeFilename
      rw [if_pos hg]
    rw [hn]

/-- C5 witness: a clean extension-less filename and a filename already ending
in ".txt". -/
theorem C5_save_path_witness :
    (save "hi" "notes").written = some ("notes" ++ ".txt", "hi") ∧
    (save "hi" "a.txt").written = some (sanitize "a.txt", "hi") :=
  have h := C5_save_path "hi" "notes" "a.txt" (by decide) (by decide) (by decide) (by decide)
  ⟨h.1, h.2⟩

/-- C10: the termination predicate is monotone under appending a message:
once it returns "end" on a history, it returns "end" on the history with any
further message appended. -/
theorem C10_predicate_monotone (h : List Msg) (m : Msg)
    (hend : should_continue h = "end") : should_continue (h ++ [m]) = "end" := by
  obtain ⟨x, hx, hs⟩ := (should_continue_end_iff h).mp hend
  exact (should_continue_end_iff (h ++ [m])).mpr ⟨x, List.mem_append_left [m] hx, hs⟩

/-- C10 witness: a history terminated by a successful save stays terminated
after a further user message. -/
theorem C10_predicate_monotone_witness :
    should_continue
      ([Msg.tool "✅ Document has been saved successfully to 'draft.txt'."]
        ++ [Msg.human "bye"]) = "end" :=
  C10_predicate_monotone [Msg.tool "✅ Document has been saved successfully to 'draft.txt'."]
    (Msg.human "bye") (by decide)

end Drafter
